import Mathlib

/-!
Verification of the `consulta` client-side search/filter engine.

Shallow embedding of the JavaScript in `src/search-filter.js`,
`src/assets/pagefind-bridge.js` and the multi-select bridge variant in
`src/unnamed/part_000`.  Strings are Lean `String`s; JS `Set`s become
`Finset String`; DOM visibility becomes explicit record/section state.
-/

namespace Consulta

/-! ### JS string primitives

`String.prototype.toLowerCase` is modelled on the character ranges the
repository's vocabulary actually uses: ASCII `A`-`Z` and the Latin-1
uppercase letters `À`(U+00C0)-`Þ`(U+00DE) except `×`(U+00D7), each of
which lowercases by adding 32 to the code point. -/

def jsCharToLower (c : Char) : Char :=
  if ('A' ≤ c ∧ c ≤ 'Z') ∨ (0xC0 ≤ c.toNat ∧ c.toNat ≤ 0xDE ∧ c.toNat ≠ 0xD7) then
    Char.ofNat (c.toNat + 32)
  else c

def jsToLower (s : String) : String :=
  String.mk (s.data.map jsCharToLower)

/-- `hay.includes(pat)` on character lists: scan every start position for a
prefix match. -/
def containsSeq (hay pat : List Char) : Bool :=
  match hay with
  | [] => pat.isPrefixOf ([] : List Char)
  | c :: rest => pat.isPrefixOf (c :: rest) || containsSeq rest pat

/-- `String.prototype.includes`. -/
def strIncludes (s pat : String) : Bool :=
  containsSeq s.data pat.data

/-- `String.prototype.trim`: drop whitespace from both ends. -/
def jsTrim (s : String) : String :=
  String.mk (((s.data.dropWhile Char.isWhitespace).reverse.dropWhile Char.isWhitespace).reverse)

theorem containsSeq_iff_infix (pat : List Char) :
    ∀ hay : List Char, containsSeq hay pat = true ↔ pat <:+: hay := by
  intro hay
  induction hay with
  | nil =>
    simp [containsSeq]
  | cons c rest ih =>
    simp only [containsSeq, Bool.or_eq_true, List.isPrefixOf_iff_prefix, ih]
    exact (List.infix_cons_iff).symm

/-! ### Record extractor (`src/search-filter.js`, `extractTipoAto` / `extractAno`) -/

/-- The ordered label list of `extractTipoAto` in `src/search-filter.js`. -/
def tipos : List String :=
  ["Constituição", "Lei Complementar", "Lei", "Decreto-Lei", "Decreto",
   "Decreto Judiciário", "Resolução", "Portaria", "Instrução Normativa",
   "Provimento", "Ato Normativo", "Ato Conjunto", "Ofício-Circular", "Código"]

/-- The `for (let tipo of tipos)` loop body: first label whose lowercase form
occurs in the lowercased title wins. -/
def findTipo (lowTitle : String) : List String → String
  | [] => "Outro"
  | tipo :: rest =>
    if strIncludes lowTitle (jsToLower tipo) = true then tipo else findTipo lowTitle rest

def extractTipoAto (title : String) : String :=
  findTipo (jsToLower title) tipos

/-! `extractAno` applies the regex
`/[nº°]\s*[\d.]+\/(\d{4})|[\(\[](\d{4})[\)\]]/` and, failing that,
`/\b(19\d{2}|20\d{2})\b/`, returning the captured 4-digit group or `""`.
The matchers below scan positions left to right, trying the first
alternative before the second at each position, exactly as the JS regex
engine does. -/

def isDigitCh (c : Char) : Bool := '0' ≤ c && c ≤ '9'

/-- JS `\w`: `[A-Za-z0-9_]`. -/
def isWordChar (c : Char) : Bool :=
  ('a' ≤ c && c ≤ 'z') || ('A' ≤ c && c ≤ 'Z') || ('0' ≤ c && c ≤ '9') || c == '_'

/-- First alternative `[nº°]\s*[\d.]+\/(\d{4})` anchored at the given
position; returns the captured group. -/
def matchAlt1 : List Char → Option String
  | [] => none
  | c :: rest =>
    if c == 'n' || c == 'º' || c == '°' then
      let afterWs := rest.dropWhile Char.isWhitespace
      let run := afterWs.takeWhile (fun ch => isDigitCh ch || ch == '.')
      let afterRun := afterWs.dropWhile (fun ch => isDigitCh ch || ch == '.')
      if run.isEmpty then none
      else
        match afterRun with
        | '/' :: d1 :: d2 :: d3 :: d4 :: _ =>
          if isDigitCh d1 && isDigitCh d2 && isDigitCh d3 && isDigitCh d4 then
            some (String.mk [d1, d2, d3, d4])
          else none
        | _ => none
    else none

/-- Second alternative `[\(\[](\d{4})[\)\]]` anchored at the given position. -/
def matchAlt2 : List Char → Option String
  | o :: d1 :: d2 :: d3 :: d4 :: cl :: _ =>
    if (o == '(' || o == '[') && isDigitCh d1 && isDigitCh d2 && isDigitCh d3 &&
        isDigitCh d4 && (cl == ')' || cl == ']') then
      some (String.mk [d1, d2, d3, d4])
    else none
  | _ => none

def scanPattern1 : List Char → Option String
  | [] => none
  | c :: rest =>
    match matchAlt1 (c :: rest) with
    | some y => some y
    | none =>
      match matchAlt2 (c :: rest) with
      | some y => some y
      | none => scanPattern1 rest

/-- `(19\d{2}|20\d{2})\b` anchored at the given position. -/
def tryYearAt : List Char → Option String
  | d1 :: d2 :: d3 :: d4 :: after =>
    if ((d1 == '1' && d2 == '9') || (d1 == '2' && d2 == '0')) && isDigitCh d3 &&
        isDigitCh d4 && (match after with | [] => true | a :: _ => !isWordChar a) then
      some (String.mk [d1, d2, d3, d4])
    else none
  | _ => none

/-- Scan for `\b(19\d{2}|20\d{2})\b`; `prevWord` tracks whether the previous
character was a word character (for the leading word boundary). -/
def scanYearToken (prevWord : Bool) : List Char → Option String
  | [] => none
  | c :: rest =>
    match (if prevWord then none else tryYearAt (c :: rest)) with
    | some y => some y
    | none => scanYearToken (isWordChar c) rest

def extractAno (title : String) : String :=
  match scanPattern1 title.data with
  | some y => y
  | none =>
    match scanYearToken false title.data with
    | some y => y
    | none => ""

/-! ### Canonicalizer (`normalizeOrgao`, identical in `src/search-filter.js`
and `src/unnamed/part_000`) -/

def normalizeOrgao (orgao : String) : String :=
  let normalized := jsTrim (jsToLower orgao)
  if strIncludes normalized "federal" = true then "Federal"
  else if strIncludes normalized "cnj" = true then "CNJ"
  else if strIncludes normalized "tjpr" = true then "TJPR"
  else if (strIncludes normalized "paraná" || strIncludes normalized "parana") = true then "TJPR"
  else orgao

/-! ### Records and the single-value query engine (`src/search-filter.js`) -/

/-- One extracted record (`allAtos` entry); the DOM back-link is dropped,
`index` is the stable join key. -/
structure AtoRec where
  index : Nat
  title : String
  description : String
  orgao : String
  tipo : String
  ano : String
deriving DecidableEq

/-- `currentFilters` of `src/search-filter.js`. -/
structure Filters where
  search : String
  orgao : String
  tipo : String
  ano : String
deriving DecidableEq

def initialFilters : Filters := ⟨"", "", "", ""⟩

/-- The assignment performed by the debounced body of `handleSearchInput`:
`currentFilters.search = e.target.value.trim()`. -/
def setSearchFromInput (raw : String) (f : Filters) : Filters :=
  { f with search := jsTrim raw }

/-- `applyFilters`: fuzzy search (external `fuse.search`, passed as a
parameter) when the query is non-empty, then equality filters for each
non-empty category.  Returns the list of records that stay visible. -/
def applyFilters (fuseSearch : String → List AtoRec) (allAtos : List AtoRec)
    (f : Filters) : List AtoRec :=
  let l1 := if f.search ≠ "" then fuseSearch f.search else allAtos
  let l2 := if f.orgao ≠ "" then l1.filter (fun ato => ato.orgao == f.orgao) else l1
  let l3 := if f.tipo ≠ "" then l2.filter (fun ato => ato.tipo == f.tipo) else l2
  if f.ano ≠ "" then l3.filter (fun ato => ato.ano == f.ano) else l3

/-! ### Multi-value filter variant (`src/unnamed/part_000`,
`applyMultiFiltersToPage`) -/

/-- `activeMultiFilters`: one set of selected values per category. -/
structure MultiFilters where
  tipo : Finset String
  orgao : Finset String
  ano : Finset String

/-- `Object.values(activeMultiFilters).some(set => set.size > 0)`. -/
def hasActiveMultiFilters (f : MultiFilters) : Bool :=
  decide (f.tipo ≠ ∅) || decide (f.orgao ≠ ∅) || decide (f.ano ≠ ∅)

/-- The per-record loop body: each non-empty category set must contain the
record's field value (OR within a category, AND across categories). -/
def matchesMultiFilters (f : MultiFilters) (ato : AtoRec) : Bool :=
  (decide (f.tipo = ∅) || decide (ato.tipo ∈ f.tipo)) &&
  (decide (f.orgao = ∅) || decide (ato.orgao ∈ f.orgao)) &&
  (decide (f.ano = ∅) || decide (ato.ano ∈ f.ano))

/-- `applyMultiFiltersToPage` as the list of records it leaves visible;
with no active filter it shows everything (the early-return branch). -/
def applyMultiFiltersToPage (allAtos : List AtoRec) (f : MultiFilters) : List AtoRec :=
  if hasActiveMultiFilters f = true then allAtos.filter (matchesMultiFilters f)
  else allAtos

/-! ### Multi-select interception (`src/assets/pagefind-bridge.js`) -/

/-- The regex test `/^todos\b/i.test(v)`: case-insensitive `todos` at the
start, followed by a word boundary. -/
def todosTest (v : String) : Bool :=
  match (jsToLower v).data with
  | 't' :: 'o' :: 'd' :: 'o' :: 's' :: rest =>
    match rest with
    | [] => true
    | c :: _ => !isWordChar c
  | _ => false

/-- `handleMultiFilterChange` of `src/assets/pagefind-bridge.js` acting on
one category's set: sentinel (empty or `Todos …`) clears the set,
otherwise membership of the trimmed value is toggled. -/
def handleMultiFilterChange (raw : String) (s : Finset String) : Finset String :=
  let value := jsTrim raw
  if value = "" ∨ todosTest value = true then ∅
  else if value ∈ s then s.erase value
  else insert value s

/-- `handleMultiFilterChange` of `src/unnamed/part_000` (the alternate
bridge variant): same sentinel handling, but a non-sentinel selection only
adds the value, it never removes it. -/
def handleMultiFilterChangeAddOnly (raw : String) (s : Finset String) : Finset String :=
  let value := jsTrim raw
  if value = "" ∨ todosTest value = true then ∅
  else insert value s

/-- User interactions that mutate one category's set in
`src/assets/pagefind-bridge.js`: a `change` event on the select
(`handleMultiFilterChange`), a badge dismissal (`Set.delete`), and the
resync `updateMultiFiltersFromSelects` (clear, then add the select's
current value when it is non-empty and not the sentinel). -/
inductive BridgeEvent where
  | change (raw : String)
  | removeBadge (v : String)
  | syncFromSelect (raw : String)

def stepEvent (s : Finset String) : BridgeEvent → Finset String
  | .change raw => handleMultiFilterChange raw s
  | .removeBadge v => s.erase v
  | .syncFromSelect raw =>
    let value := jsTrim raw
    if value ≠ "" ∧ todosTest value = false then {value} else ∅

/-- A category's set after a sequence of interactions, starting from the
initial empty set. -/
def runEvents (evs : List BridgeEvent) : Finset String :=
  evs.foldl stepEvent ∅

/-- A sentinel value: empty, or matching `/^todos\b/i`. -/
def isSentinelValue (v : String) : Bool :=
  v == "" || todosTest v

/-! ### View synchronizer (`updateSectionVisibility`, `resetFilters`,
`updateResultCount` in `src/search-filter.js`) -/

/-- One `.ato-line` element: whether it carries the `hidden-by-filter`
class (its `display:none` is always set together with the class). -/
structure AtoView where
  hiddenByFilter : Bool
deriving DecidableEq

/-- One `.suborg` container with the `.ato-line` elements inside it. -/
structure SubOrgView where
  hidden : Bool
  atos : List AtoView
deriving DecidableEq

/-- One `.org-group` section: its own visibility, its `.suborg` children,
and the `.ato-line` elements not nested in any suborg. -/
structure SectionView where
  hidden : Bool
  suborgs : List SubOrgView
  directAtos : List AtoView
deriving DecidableEq

/-- All `.ato-line` descendants of a section, suborg-nested or direct. -/
def SectionView.allAtos (sec : SectionView) : List AtoView :=
  sec.directAtos ++ sec.suborgs.flatMap (·.atos)

/-- `updateSectionVisibility`: hide each suborg with zero non-hidden
records, then hide each section with zero non-hidden descendant records. -/
def updateSectionVisibility (sections : List SectionView) : List SectionView :=
  sections.map fun sec =>
    { sec with
      suborgs := sec.suborgs.map fun sub =>
        { sub with hidden := (sub.atos.filter (fun a => !a.hiddenByFilter)).isEmpty }
      hidden := ((sec.allAtos).filter (fun a => !a.hiddenByFilter)).isEmpty }

/-- The DOM part of `resetFilters`: every record loses its
`hidden-by-filter` state and every `.org-group` section is shown again.
The `.suborg` containers are not touched by the source. -/
def resetSections (sections : List SectionView) : List SectionView :=
  sections.map fun sec =>
    { hidden := false
      suborgs := sec.suborgs.map fun sub =>
        { sub with atos := sub.atos.map fun _ => ⟨false⟩ }
      directAtos := sec.directAtos.map fun _ => ⟨false⟩ }

/-- The `currentFilters` value installed by `resetFilters`. -/
def resetFiltersState : Filters := ⟨"", "", "", ""⟩

/-- `updateResultCount`: message text and CSS class; `none` models the
argument-less call (count defaults to the total). -/
def updateResultCount (count : Option Nat) (total : Nat) : String × String :=
  let displayCount := count.getD total
  if displayCount = total then
    (s!"Exibindo todos os {total} atos normativos", "result-count-all")
  else
    (s!"Exibindo {displayCount} de {total} atos normativos", "result-count-filtered")

/-! ### Debounced search input (`handleSearchInput` in
`src/search-filter.js`)

Event-loop model: a keystroke runs `clearTimeout` and schedules a fresh
timer (so at most one timer is ever pending), and the timer body reads the
input's current value, trims it into the filter state and recomputes.
"Within the debounce window" means no timer fires between keystrokes. -/

structure DebounceState where
  inputValue : String
  pending : Bool
  search : String
  recomputeCount : Nat
deriving DecidableEq

/-- One keystroke: the input now holds `v`; `clearTimeout` cancels any
pending timer and `setTimeout` schedules a new one. -/
def pressKey (st : DebounceState) (v : String) : DebounceState :=
  { st with inputValue := v, pending := true }

/-- The debounce timer firing: one recomputation from the input's current
value; nothing happens if no timer is pending. -/
def fireTimer (st : DebounceState) : DebounceState :=
  if st.pending then
    { st with
      pending := false
      search := jsTrim st.inputValue
      recomputeCount := st.recomputeCount + 1 }
  else st

end Consulta

namespace Consulta

/-- If a string contains `"decreto-lei"` it also contains `"lei"`. -/
theorem strIncludes_lei_of_decretoLei (s : String)
    (h : strIncludes s "decreto-lei" = true) : strIncludes s "lei" = true := by
  rw [strIncludes, containsSeq_iff_infix] at h ⊢
  exact List.IsInfix.trans (by decide) h

/-- C1: the spec scenario expects documentType `"Decreto-Lei"` for the
title `"Decreto-Lei nº 45/1985"`, but `extractTipoAto` tests the label
`"Lei"` before `"Decreto-Lei"`, so the code returns `"Lei"`; the year
extractor does return `"1985"`. -/
theorem extractTipo_decretoLei_scenario :
    extractTipoAto "Decreto-Lei nº 45/1985" = "Lei" ∧
    extractAno "Decreto-Lei nº 45/1985" = "1985" := by
  constructor
  · decide
  · decide

/-- `findTipo` returns `"Outro"` or a list element whose own containment
test succeeded. -/
theorem findTipo_ret_test (low : String) :
    ∀ (l : List String) (x : String), findTipo low l = x →
      x = "Outro" ∨ (x ∈ l ∧ strIncludes low (jsToLower x) = true) := by
  intro l
  induction l with
  | nil => intro x hx; left; exact hx.symm
  | cons a rest ih =>
    intro x hx
    rw [findTipo] at hx
    by_cases ha : strIncludes low (jsToLower a) = true
    · rw [if_pos ha] at hx
      right
      exact ⟨hx ▸ List.mem_cons_self a rest, hx ▸ ha⟩
    · rw [if_neg ha] at hx
      rcases ih x hx with h | ⟨hm, ht⟩
      · left; exact h
      · right; exact ⟨List.mem_cons_of_mem a hm, ht⟩

/-- If `findTipo` over `l1 ++ l2` returns a label not in `l1`, every test
for a label of `l1` failed. -/
theorem findTipo_earlier_false (low : String) :
    ∀ (l1 l2 : List String) (x : String), x ∉ l1 → findTipo low (l1 ++ l2) = x →
      ∀ y ∈ l1, strIncludes low (jsToLower y) = false := by
  intro l1
  induction l1 with
  | nil => intro l2 x _ _ y hy; exact absurd hy (List.not_mem_nil y)
  | cons a rest ih =>
    intro l2 x hnx hfind y hy
    rw [List.cons_append, findTipo] at hfind
    by_cases ha : strIncludes low (jsToLower a) = true
    · rw [if_pos ha] at hfind
      exact absurd (hfind ▸ List.mem_cons_self a rest) hnx
    · rw [if_neg ha] at hfind
      rcases List.mem_cons.mp hy with h | h
      · subst h; exact Bool.eq_false_iff.mpr ha
      · exact ih l2 x (fun hm => hnx (List.mem_cons_of_mem a hm)) hfind y h

/-- The `"Decreto-Lei"` entry of the label list is unreachable: any title
containing it also contains `"lei"`, and `"Lei"` is tested first. -/
theorem findTipo_never_decretoLei (t : String) :
    (extractTipoAto t == "Decreto-Lei") = false := by
  rw [beq_eq_false_iff_ne]
  intro h
  have hret := findTipo_ret_test (jsToLower t) tipos "Decreto-Lei" h
  have htest : strIncludes (jsToLower t) (jsToLower "Decreto-Lei") = true :=
    (hret.resolve_left (by decide)).2
  rw [show jsToLower "Decreto-Lei" = "decreto-lei" from by decide] at htest
  have hlei : strIncludes (jsToLower t) "lei" = true :=
    strIncludes_lei_of_decretoLei _ htest
  have hsplit : tipos = ["Constituição", "Lei Complementar", "Lei"] ++
      ["Decreto-Lei", "Decreto", "Decreto Judiciário", "Resolução", "Portaria",
       "Instrução Normativa", "Provimento", "Ato Normativo", "Ato Conjunto",
       "Ofício-Circular", "Código"] := by decide
  have hfind : findTipo (jsToLower t) (["Constituição", "Lei Complementar", "Lei"] ++
      ["Decreto-Lei", "Decreto", "Decreto Judiciário", "Resolução", "Portaria",
       "Instrução Normativa", "Provimento", "Ato Normativo", "Ato Conjunto",
       "Ofício-Circular", "Código"]) = "Decreto-Lei" := by
    rw [← hsplit]; exact h
  have hfalse := findTipo_earlier_false (jsToLower t) _ _ "Decreto-Lei"
    (by decide) hfind "Lei" (by decide)
  rw [show jsToLower "Lei" = "lei" from by decide] at hfalse
  rw [hlei] at hfalse
  exact Bool.true_eq_false.mp hfalse

set_option maxHeartbeats 1000000 in
/-- C5: the label list is not ordered longest-first everywhere.
`"Lei Complementar"` is correctly tested before `"Lei"` and an unmatched
title yields `"Outro"`, but `"Lei"` is tested before `"Decreto-Lei"` and
`"Decreto"` before `"Decreto Judiciário"`, so `extractTipoAto` can never
return `"Decreto-Lei"` and classifies `"Decreto Judiciário nº 7/2021"` as
`"Decreto"`. -/
theorem extractTipoAto_order_violation :
    (∀ t : String, (extractTipoAto t == "Decreto-Lei") = false) ∧
    extractTipoAto "Decreto Judiciário nº 7/2021" = "Decreto" ∧
    extractTipoAto "Lei Complementar nº 1/2020" = "Lei Complementar" ∧
    extractTipoAto "Emenda Constitucional 12" = "Outro" :=
  ⟨findTipo_never_decretoLei, by decide, by decide, by decide⟩

/-- C7: the canonicalizer is idempotent; in particular each canonical
label maps to itself. -/
theorem normalizeOrgao_idempotent (s : String) :
    normalizeOrgao (normalizeOrgao s) = normalizeOrgao s := by
  by_cases h1 : strIncludes (jsTrim (jsToLower s)) "federal" = true
  · have hs : normalizeOrgao s = "Federal" := by simp [normalizeOrgao, h1]
    rw [hs]; decide
  · by_cases h2 : strIncludes (jsTrim (jsToLower s)) "cnj" = true
    · have hs : normalizeOrgao s = "CNJ" := by simp [normalizeOrgao, h1, h2]
      rw [hs]; decide
    · by_cases h3 : strIncludes (jsTrim (jsToLower s)) "tjpr" = true
      · have hs : normalizeOrgao s = "TJPR" := by simp [normalizeOrgao, h1, h2, h3]
        rw [hs]; decide
      · by_cases h4 : (strIncludes (jsTrim (jsToLower s)) "paraná" ||
            strIncludes (jsTrim (jsToLower s)) "parana") = true
        · have hs : normalizeOrgao s = "TJPR" := by
            simp [normalizeOrgao, h1, h2, h3, h4]
          rw [hs]; decide
        · have hs : normalizeOrgao s = s := by
            simp [normalizeOrgao, h1, h2, h3, h4]
          rw [hs]
          exact hs

/-- C10: the `"federal"` containment test comes first, so any raw
issuing-body string containing `"federal"` (case-insensitively, after
trimming) canonicalizes to `"Federal"`, whatever else it contains. -/
theorem normalizeOrgao_federal_first (s : String)
    (h : strIncludes (jsTrim (jsToLower s)) "federal" = true) :
    normalizeOrgao s = "Federal" := by
  simp [normalizeOrgao, h]

/-- Witness for C10 at a raw string containing both `"federal"` and
`"paraná"`. -/
theorem normalizeOrgao_federal_first_witness :
    strIncludes (jsTrim (jsToLower "Justiça Federal do Paraná")) "federal" = true ∧
    normalizeOrgao "Justiça Federal do Paraná" = "Federal" :=
  ⟨by decide, normalizeOrgao_federal_first "Justiça Federal do Paraná" (by decide)⟩

/-! ### Query engine theorems -/

/-- Sample records for the concrete scenarios. -/
def atoLei : AtoRec := ⟨0, "Lei nº 1/2001", "", "Federal", "Lei", "2001"⟩

def atoDecreto : AtoRec := ⟨1, "Decreto nº 2/2002", "", "Federal", "Decreto", "2002"⟩

def atoPortaria : AtoRec := ⟨2, "Portaria nº 3/2003", "", "CNJ", "Portaria", "2003"⟩

/-- C2: in the multi-value variant a record stays visible iff every
category with a non-empty selected set contains the record's field value
(OR within a category, AND across categories); with
`tipo = {"Lei", "Decreto"}` and nothing else the visible records are
exactly those whose `tipo` is `"Lei"` or `"Decreto"`. -/
theorem multiFilter_visible_iff :
    (∀ (f : MultiFilters) (atos : List AtoRec) (a : AtoRec),
        a ∈ applyMultiFiltersToPage atos f ↔
          a ∈ atos ∧ (f.tipo ≠ ∅ → a.tipo ∈ f.tipo) ∧
            (f.orgao ≠ ∅ → a.orgao ∈ f.orgao) ∧ (f.ano ≠ ∅ → a.ano ∈ f.ano)) ∧
    applyMultiFiltersToPage [atoLei, atoDecreto, atoPortaria]
        ⟨{"Lei", "Decreto"}, ∅, ∅⟩ = [atoLei, atoDecreto] := by
  constructor
  · intro f atos a
    by_cases hact : hasActiveMultiFilters f = true
    · rw [applyMultiFiltersToPage, if_pos hact, List.mem_filter]
      simp only [matchesMultiFilters, Bool.and_eq_true, Bool.or_eq_true,
        decide_eq_true_eq]
      constructor
      · rintro ⟨hm, ⟨h1, h2⟩, h3⟩
        exact ⟨hm, fun hne => h1.resolve_left hne, fun hne => h2.resolve_left hne,
          fun hne => h3.resolve_left hne⟩
      · rintro ⟨hm, h1, h2, h3⟩
        refine ⟨hm, ⟨?_, ?_⟩, ?_⟩ <;> · rw [or_iff_not_imp_left]; assumption
    · rw [applyMultiFiltersToPage, if_neg hact]
      simp only [hasActiveMultiFilters, Bool.or_eq_true, decide_eq_true_eq,
        not_or] at hact
      push_neg at hact
      simp [hact.1.1, hact.1.2, hact.2]
  · decide

/-- C3: with an empty (or whitespace-only, hence trimmed-empty) query and
no categorical constraints, `applyFilters` keeps the full record list. -/
theorem emptyQuery_shows_all (fuseSearch : String → List AtoRec)
    (atos : List AtoRec) (raw : String) (f : Filters)
    (hs : jsTrim raw = "") (ho : f.orgao = "") (ht : f.tipo = "") (ha : f.ano = "") :
    applyFilters fuseSearch atos (setSearchFromInput raw f) = atos := by
  simp [applyFilters, setSearchFromInput, hs, ho, ht, ha]

/-- Witness for C3: whitespace-only input, default filter state. -/
theorem emptyQuery_shows_all_witness :
    jsTrim "   " = "" ∧
    applyFilters (fun _ => []) [atoLei, atoPortaria]
      (setSearchFromInput "   " initialFilters) = [atoLei, atoPortaria] :=
  ⟨by decide, emptyQuery_shows_all (fun _ => []) [atoLei, atoPortaria] "   "
    initialFilters (by decide) rfl rfl rfl⟩

/-! ### Multi-select toggle theorems -/

/-- C4 (counterexample): in the `src/unnamed/part_000` variant a selection
only adds, so selecting `"Lei"` twice from the empty set leaves
`{"Lei"}`, not the prior empty set. -/
theorem addOnly_double_select_not_restored :
    handleMultiFilterChangeAddOnly "Lei"
      (handleMultiFilterChangeAddOnly "Lei" (∅ : Finset String)) ≠ (∅ : Finset String) := by
  decide

/-- C4 (amended): in the `src/assets/pagefind-bridge.js` overlay each
selection toggles membership, so selecting the same non-sentinel value
twice restores the category's previous set. -/
theorem multiSelect_toggle_twice (raw : String) (s : Finset String)
    (h1 : jsTrim raw ≠ "") (h2 : todosTest (jsTrim raw) = false) :
    handleMultiFilterChange raw (handleMultiFilterChange raw s) = s := by
  have hcond : ¬(jsTrim raw = "" ∨ todosTest (jsTrim raw) = true) := by
    rintro (h | h)
    · exact h1 h
    · rw [h2] at h; exact Bool.false_ne_true h
  by_cases hmem : jsTrim raw ∈ s
  · have hinner : handleMultiFilterChange raw s = s.erase (jsTrim raw) := by
      simp only [handleMultiFilterChange]
      rw [if_neg hcond, if_pos hmem]
    rw [hinner]
    simp only [handleMultiFilterChange]
    rw [if_neg hcond, if_neg (Finset.not_mem_erase _ _)]
    exact Finset.insert_erase hmem
  · have hinner : handleMultiFilterChange raw s = insert (jsTrim raw) s := by
      simp only [handleMultiFilterChange]
      rw [if_neg hcond, if_neg hmem]
    rw [hinner]
    simp only [handleMultiFilterChange]
    rw [if_neg hcond, if_pos (Finset.mem_insert_self _ _)]
    exact Finset.erase_insert hmem

/-- Witness for C4's amended toggle law at `"Lei"` over `{"Decreto"}`. -/
theorem multiSelect_toggle_twice_witness :
    jsTrim "Lei" ≠ "" ∧ todosTest (jsTrim "Lei") = false ∧
    handleMultiFilterChange "Lei"
      (handleMultiFilterChange "Lei" ({"Decreto"} : Finset String)) = {"Decreto"} :=
  ⟨by decide, by decide,
    multiSelect_toggle_twice "Lei" {"Decreto"} (by decide) (by decide)⟩

/-! ### Sentinel invariant -/

/-- Any single interaction preserves sentinel-freeness of a category's
set. -/
theorem stepEvent_sentinel_free (s : Finset String) (e : BridgeEvent)
    (h : s.filter (fun v => isSentinelValue v = true) = ∅) :
    (stepEvent s e).filter (fun v => isSentinelValue v = true) = ∅ := by
  rw [Finset.filter_eq_empty_iff] at h ⊢
  intro x hx
  cases e with
  | change raw =>
    simp only [stepEvent, handleMultiFilterChange] at hx
    by_cases hcond : jsTrim raw = "" ∨ todosTest (jsTrim raw) = true
    · rw [if_pos hcond] at hx
      exact absurd hx (Finset.not_mem_empty x)
    · rw [if_neg hcond] at hx
      push_neg at hcond
      by_cases hmem : jsTrim raw ∈ s
      · rw [if_pos hmem] at hx
        exact h (Finset.mem_of_mem_erase hx)
      · rw [if_neg hmem] at hx
        rcases Finset.mem_insert.mp hx with hv | hv
        · subst hv
          simp [isSentinelValue, hcond.1, hcond.2]
        · exact h hv
  | removeBadge v =>
    exact h (Finset.mem_of_mem_erase hx)
  | syncFromSelect raw =>
    simp only [stepEvent] at hx
    by_cases hcond : jsTrim raw ≠ "" ∧ todosTest (jsTrim raw) = false
    · rw [if_pos hcond] at hx
      rw [Finset.mem_singleton.mp hx]
      simp [isSentinelValue, hcond.1, hcond.2]
    · rw [if_neg hcond] at hx
      exact absurd hx (Finset.not_mem_empty x)

/-- C8: selecting the `"Todos …"` placeholder (or the empty value) clears
the category's set, and after any sequence of interactions a category's
set contains no sentinel value. -/
theorem sentinel_never_in_filters :
    (∀ s : Finset String, handleMultiFilterChange "Todos os Tipos" s = ∅ ∧
        handleMultiFilterChange "" s = ∅) ∧
    (∀ evs : List BridgeEvent,
        (runEvents evs).filter (fun v => isSentinelValue v = true) = ∅) := by
  constructor
  · intro s
    constructor
    · simp only [handleMultiFilterChange]
      rw [if_pos (Or.inr (by decide))]
    · simp only [handleMultiFilterChange]
      rw [if_pos (Or.inl (by decide))]
  · have main : ∀ (evs : List BridgeEvent) (s : Finset String),
        s.filter (fun v => isSentinelValue v = true) = ∅ →
        (evs.foldl stepEvent s).filter (fun v => isSentinelValue v = true) = ∅ := by
      intro evs
      induction evs with
      | nil => intro s hs; exact hs
      | cons e rest ih =>
        intro s hs
        rw [List.foldl_cons]
        exact ih (stepEvent s e) (stepEvent_sentinel_free s e hs)
    intro evs
    exact main evs ∅ (Finset.filter_empty _)

/-! ### Reset / view synchronizer theorems -/

/-- C6: after a filter pass hides the only record of a sub-group,
`updateSectionVisibility` folds the sub-group and its section away;
`resetFilters` then unhides the record, restores the section and the
default filter state and shows the "all shown" count message, but the
sub-group container keeps its `display:none`, so the record stays
occluded. -/
theorem resetFilters_leaves_suborg_hidden :
    updateSectionVisibility [⟨false, [⟨false, [⟨true⟩]⟩], []⟩] =
      [⟨true, [⟨true, [⟨true⟩]⟩], []⟩] ∧
    resetSections [⟨true, [⟨true, [⟨true⟩]⟩], []⟩] =
      [⟨false, [⟨true, [⟨false⟩]⟩], []⟩] ∧
    resetFiltersState = initialFilters ∧
    updateResultCount none 1 =
      ("Exibindo todos os 1 atos normativos", "result-count-all") := by
  exact ⟨by decide, by decide, rfl, rfl⟩

/-! ### Debounce theorems -/

/-- Folding keystrokes over `pressKey` leaves exactly one pending timer
and the input holding the last keystroke's value. -/
theorem foldl_pressKey (ks : List String) :
    ∀ (k : String) (st : DebounceState),
      ks.foldl pressKey (pressKey st k) =
        { st with inputValue := ks.getLastD k, pending := true } := by
  induction ks with
  | nil => intro k st; rfl
  | cons a rest ih =>
    intro k st
    rw [List.foldl_cons]
    have hcollapse : pressKey (pressKey st k) a = pressKey st a := rfl
    rw [hcollapse, ih a st, List.getLastD_cons]

/-- C9: any non-empty burst of keystrokes inside the debounce window
(each keystroke cancels the pending timer and schedules a new one, so no
timer fires in between) is followed by exactly one recomputation, and it
uses the input value present at the last keystroke. -/
theorem debounce_single_recompute (st : DebounceState) (k : String) (ks : List String) :
    (fireTimer ((k :: ks).foldl pressKey st)).recomputeCount = st.recomputeCount + 1 ∧
    (fireTimer ((k :: ks).foldl pressKey st)).search = jsTrim (ks.getLastD k) := by
  rw [List.foldl_cons, foldl_pressKey]
  simp [fireTimer]

end Consulta
